import Mathlib

/-!
Shallow embedding of `pkg/controller/managedcluster/managedcluster_controller.go`
from the managedcluster-import-controller repository, together with theorems
checking the specification's claims about it.

Store interactions (`client.Get`, `client.Update`, `client.Delete`,
`client.Status().Patch`) are modelled by injected responses: each call site of
the Go code reads its outcome from an environment record, and each modelled
function additionally returns the trace of store operations it issued, so that
claims about "which calls are made" can be stated.  Functions of the same
repository that are called but whose bodies are not part of the modelled file
(`importCluster`, the applier, `generateImportYAMLs`, ...) appear only through
their returned outcome, likewise injected.
-/

namespace MCImport

/-- Constants from the Go file. -/
def managedClusterFinalizer : String :=
  "managedcluster-import-controller.open-cluster-management.io/cleanup"

def clusterLabel : String := "cluster.open-cluster-management.io/managedCluster"

def selfManagedLabel : String := "local-cluster"

def autoImportSecretName : String := "auto-import-secret"

def ManagedClusterImportSucceeded : String := "ManagedClusterImportSucceeded"

/-- `clusterv1.ManagedClusterConditionAvailable`. -/
def ManagedClusterConditionAvailable : String := "ManagedClusterConditionAvailable"

/-- `time.Minute` in nanoseconds, the unit of `time.Duration`. -/
def timeMinute : Nat := 60000000000

/-- `metav1.ConditionStatus` as validated for `metav1.Condition` fields:
the API server restricts it to the three enum values True, False, Unknown. -/
inductive ConditionStatus where
  | ctrue
  | cfalse
  | cunknown
  deriving DecidableEq, Repr

/-- `metav1.Condition` (timestamps and observed generation omitted: the
modelled code never branches on them). -/
structure Condition where
  ctype : String
  status : ConditionStatus
  reason : String
  message : String
  deriving DecidableEq, Repr

/-- Association-list lookup, modelling Go map indexing `m[k]`. -/
def lookupL (m : List (String × String)) (k : String) : Option String :=
  match m with
  | [] => none
  | (k', v) :: rest => if k' = k then some v else lookupL rest k

/-- Association-list insert, modelling Go map assignment `m[k] = v` at a key
checked to be absent (the code only assigns after `!ok`). -/
def insertL (m : List (String × String)) (k v : String) : List (String × String) :=
  m ++ [(k, v)]

/-- `clusterv1.ManagedCluster`: the fields the modelled code reads or writes. -/
structure ManagedCluster where
  name : String
  labels : List (String × String)
  finalizers : List String
  deletionTimestamp : Option Nat
  conditions : List Condition
  deriving DecidableEq, Repr

/-- `corev1.Namespace`: the fields the modelled code reads or writes. -/
structure KNamespace where
  name : String
  labels : List (String × String)
  deletionTimestamp : Option Nat
  deriving DecidableEq, Repr

/-- `hivev1.ClusterDeployment`: the fields the modelled code reads or writes. -/
structure ClusterDeployment where
  name : String
  nsName : String
  finalizers : List String
  deriving DecidableEq, Repr

/-- `corev1.Secret`: identity only: the modelled code never reads its data. -/
structure Secret where
  name : String
  nsName : String
  deriving DecidableEq, Repr

/-- Outcome of a `client.Get` call: success with the object, a not-found
error (`errors.IsNotFound err`), or any other error. -/
inductive GetRes (α : Type) where
  | ok (a : α)
  | notFound
  | err (e : String)
  deriving DecidableEq, Repr

/-- Outcome of a `client.Update` or `client.Status().Patch` call. -/
inductive UpdRes where
  | ok
  | err (e : String)
  deriving DecidableEq, Repr

/-- Outcome of a `client.Delete` call. -/
inductive DelRes where
  | ok
  | notFound
  | err (e : String)
  deriving DecidableEq, Repr

/-- `strconv.ParseBool`: accepts 1, t, T, TRUE, true, True, 0, f, F,
FALSE, false, False; anything else is a parse failure (`none`). -/
def parseBool (s : String) : Option Bool :=
  if s = "1" ∨ s = "t" ∨ s = "T" ∨ s = "TRUE" ∨ s = "true" ∨ s = "True" then
    some true
  else if s = "0" ∨ s = "f" ∨ s = "F" ∨ s = "FALSE" ∨ s = "false" ∨ s = "False" then
    some false
  else
    none

/-- The error message carried by `strconv.ParseBool` on failure
(`strconv.ErrSyntax` wrapped by `ParseBool`). -/
def parseBoolErr (v : String) : String :=
  "strconv.ParseBool: parsing " ++ v ++ ": invalid syntax"

/-- `libgometav1.AddFinalizer`: append the finalizer if not yet present. -/
def addFinalizer (fs : List String) (f : String) : List String :=
  if f ∈ fs then fs else fs ++ [f]

/-- `libgometav1.RemoveFinalizer`: drop every occurrence of the finalizer. -/
def removeFinalizer (fs : List String) (f : String) : List String :=
  fs.filter (fun x => x ≠ f)

/-! ## Import Decision Engine: `toBeImported` -/

/-- Store responses consumed by `toBeImported`: the `ClusterDeployment` get
keyed by the cluster's name in its own namespace, and the fixed-name
auto-import secret get in the cluster's namespace. -/
structure TBIEnv where
  clusterDeployment : GetRes ClusterDeployment
  autoImportSecret : GetRes Secret
  deriving DecidableEq, Repr

/-- The store lookups `toBeImported` can issue, in issue order. -/
inductive TBILookup where
  | getClusterDeployment
  | getAutoImportSecret
  deriving DecidableEq, Repr

/-- The four return values of `toBeImported`:
`(*corev1.Secret, *hivev1.ClusterDeployment, bool, error)`. -/
structure TBIResult where
  secret : Option Secret
  clusterDeployment : Option ClusterDeployment
  toImport : Bool
  err : Option String
  deriving DecidableEq, Repr

/-- `(r *ReconcileManagedCluster) toBeImported`, paired with the trace of
store lookups it issues.  On a present self-managed label it returns
`strconv.ParseBool`'s value and error directly (`ParseBool` yields `false`
alongside its error); otherwise it gets the ClusterDeployment and, only on
not-found, the auto-import secret. -/
def toBeImported (env : TBIEnv) (mc : ManagedCluster) : TBIResult × List TBILookup :=
  match lookupL mc.labels selfManagedLabel with
  | some v =>
    match parseBool v with
    | some b => (⟨none, none, b, none⟩, [])
    | none => (⟨none, none, false, some (parseBoolErr v)⟩, [])
  | none =>
    match env.clusterDeployment with
    | .ok cd => (⟨none, some cd, true, none⟩, [.getClusterDeployment])
    | .err e => (⟨none, none, false, some e⟩, [.getClusterDeployment])
    | .notFound =>
      match env.autoImportSecret with
      | .notFound =>
        (⟨none, none, false, none⟩, [.getClusterDeployment, .getAutoImportSecret])
      | .err e =>
        (⟨none, none, false, some e⟩, [.getClusterDeployment, .getAutoImportSecret])
      | .ok s =>
        (⟨some s, none, true, none⟩, [.getClusterDeployment, .getAutoImportSecret])

/-! ## Reachability classifier: `checkOffLine` -/

/-- The loop body of `checkOffLine`: scan the conditions in order and decide
at the first one whose type is `ManagedClusterConditionAvailable`. -/
def checkOffLineLoop (cs : List Condition) : Bool :=
  match cs with
  | [] => true
  | sc :: rest =>
    if sc.ctype = ManagedClusterConditionAvailable then
      sc.status = ConditionStatus.cunknown ∨ sc.status = ConditionStatus.cfalse
    else
      checkOffLineLoop rest

/-- `checkOffLine`: true means the cluster is classified offline. -/
def checkOffLine (mc : ManagedCluster) : Bool :=
  checkOffLineLoop mc.conditions

/-- First condition of a given type, mirroring the scan order of the loop
(and of `meta.FindStatusCondition`). -/
def findCondition (cs : List Condition) (t : String) : Option Condition :=
  match cs with
  | [] => none
  | c :: rest => if c.ctype = t then some c else findCondition rest t

/-! ## Deletion pipeline: `deleteNamespace` -/

/-- Store responses consumed by `deleteNamespace`: the namespace get, the
ClusterDeployment get (same name and namespace as the cluster), the update
removing the finalizer from the ClusterDeployment, and the namespace delete. -/
structure DNSEnv where
  ns : GetRes KNamespace
  clusterDeployment : GetRes ClusterDeployment
  updateCD : UpdRes
  deleteNs : DelRes
  deriving DecidableEq, Repr

/-- The store operations `deleteNamespace` can issue, in issue order.  The
update carries the ClusterDeployment object as written. -/
inductive DNSOp where
  | getNs
  | getCD
  | updateCD (cd : ClusterDeployment)
  | deleteNs
  deriving DecidableEq, Repr

/-- The explicit blocking error of `deleteNamespace`
(`fmt.Errorf` with both verbs filled by the namespace name). -/
def blockErrMsg (namespaceName : String) : String :=
  "can not delete namespace " ++ namespaceName ++ " as ClusterDeployment " ++
    namespaceName ++ " still exist"

/-- `(r *ReconcileManagedCluster) deleteNamespace`, returning the Go `error`
(`none` = nil) paired with the trace of store operations issued. -/
def deleteNamespace (env : DNSEnv) (namespaceName : String) :
    Option String × List DNSOp :=
  match env.ns with
  | .notFound => (none, [.getNs])
  | .err e => (some e, [.getNs])
  | .ok ns =>
    if ns.deletionTimestamp.isSome then
      (none, [.getNs])
    else
      match env.clusterDeployment with
      | .err e => (some e, [.getNs, .getCD])
      | .ok cd =>
        let cd' : ClusterDeployment :=
          { cd with finalizers := removeFinalizer cd.finalizers managedClusterFinalizer }
        match env.updateCD with
        | .err e => (some e, [.getNs, .getCD, .updateCD cd'])
        | .ok => (some (blockErrMsg namespaceName), [.getNs, .getCD, .updateCD cd'])
      | .notFound =>
        match env.deleteNs with
        | .ok => (none, [.getNs, .getCD, .deleteNs])
        | .notFound => (none, [.getNs, .getCD, .deleteNs])
        | .err e => (some e, [.getNs, .getCD, .deleteNs])

/-! ## Status Condition Recorder: `setConditionImport` -/

/-- `meta.SetStatusCondition` restricted to the modelled condition fields:
replace the first condition of the same type in place, or append. -/
def setStatusCondition (cs : List Condition) (nc : Condition) : List Condition :=
  match cs with
  | [] => [nc]
  | c :: rest =>
    if c.ctype = nc.ctype then nc :: rest else c :: setStatusCondition rest nc

/-- What `setConditionImport` did: the condition it computed, the patch base
(the `DeepCopy` taken before mutating the object), the stored cluster after
the call (unchanged when the patch failed), and the returned error. -/
structure SCIOut where
  newCondition : Condition
  patchBase : List Condition
  stored : ManagedCluster
  ret : Option String
  deriving DecidableEq, Repr

/-- `(r *ReconcileManagedCluster) setConditionImport`: build the
`ManagedClusterImportSucceeded` condition (True / "Import succeeded" for a nil
incoming error, otherwise False with the error message, suffixed by
": reason" when the reason is nonempty), merge-patch it from the pre-mutation
copy, and return the incoming error when the patch succeeded, else the patch
error. -/
def setConditionImport (patchRes : UpdRes) (mc : ManagedCluster)
    (errIn : Option String) (reason : String) : SCIOut :=
  let nc : Condition :=
    match errIn with
    | none =>
      ⟨ManagedClusterImportSucceeded, ConditionStatus.ctrue,
        "ManagedClusterImported", "Import succeeded"⟩
    | some m =>
      ⟨ManagedClusterImportSucceeded, ConditionStatus.cfalse,
        "ManagedClusterNotImported", if reason = "" then m else m ++ ": " ++ reason⟩
  let mc' : ManagedCluster :=
    { mc with conditions := setStatusCondition mc.conditions nc }
  match patchRes with
  | .err e => ⟨nc, mc.conditions, mc, some e⟩
  | .ok => ⟨nc, mc.conditions, mc', errIn⟩

/-! ## Reconcile: initial fetch and the not-found cleanup branch -/

/-- `reconcile.Result`: the requeue flag and the requeue-after duration in
nanoseconds. -/
structure RResult where
  requeue : Bool
  requeueAfter : Nat
  deriving DecidableEq, Repr

/-- Outcome of the opening of `Reconcile` (fetch of the ManagedCluster and
lines up to the deletion-timestamp dispatch): either fall through to the
provisioning sequence with the instance, or return. -/
inductive FetchOutcome where
  | proceed (mc : ManagedCluster)
  | done (res : RResult) (err : Option String)
  deriving DecidableEq, Repr

/-- Lines 133-157 of `Reconcile`: fetch the instance; on not-found run
`deleteNamespace` and swallow its failure into a fixed one-minute requeue
with nil error; on any other fetch error return it; on a set deletion
timestamp the call dispatches to `managedClusterDeletion` (modelled as
`done` with that pipeline's injected outcome). -/
def reconcileFetch (instGet : GetRes ManagedCluster) (dnsEnv : DNSEnv)
    (requestName : String) (deletionOutcome : RResult × Option String) :
    FetchOutcome :=
  match instGet with
  | .err e => .done ⟨false, 0⟩ (some e)
  | .notFound =>
    match (deleteNamespace dnsEnv requestName).1 with
    | some _ => .done ⟨true, timeMinute⟩ none
    | none => .done ⟨false, 0⟩ none
  | .ok mc =>
    if mc.deletionTimestamp.isSome then
      .done deletionOutcome.1 deletionOutcome.2
    else
      .proceed mc

/-! ## Reconcile: the unreachable (offline) branch -/

/-- Injected outcomes for the offline branch of `Reconcile`: the decision
engine's store responses, the result and error of `importCluster` (whose body
lies outside the modelled file), and the status patch outcome. -/
structure OBEnv where
  tbi : TBIEnv
  importResult : RResult
  importErr : Option String
  patchRes : UpdRes
  deriving DecidableEq, Repr

/-- What the offline branch returned and left in the store. -/
structure BranchOut where
  result : RResult
  err : Option String
  stored : ManagedCluster
  patchIssued : Bool
  deriving DecidableEq, Repr

/-- Lines 277-298 of `Reconcile` (the `else` of `checkOffLine`): call
`toBeImported`; propagate its error; stop cleanly when not importing;
otherwise take `importCluster`'s outcome, returning it at once when it
requeues or errs, and only in the remaining case record the condition
(passing the by-then nil error) and return the outcome. -/
def offlineBranch (env : OBEnv) (mc : ManagedCluster) : BranchOut :=
  let t := toBeImported env.tbi mc
  match t.1.err with
  | some e => ⟨⟨false, 0⟩, some e, mc, false⟩
  | none =>
    if t.1.toImport = false then
      ⟨⟨false, 0⟩, none, mc, false⟩
    else
      if env.importResult.requeue ∨ env.importErr.isSome then
        ⟨env.importResult, env.importErr, mc, false⟩
      else
        let sci := setConditionImport env.patchRes mc none ("Unable to import " ++ mc.name)
        ⟨env.importResult, env.importErr, sci.stored, true⟩

/-! ## Reconcile: the provisioning sequence (lines 159-267) as a fail-fast
chain of steps with injected outcomes -/

/-- Injected outcomes of the provisioning steps, in program order.  Calls to
repository code outside the modelled file (the applier, YAML generation,
secret upsert, syncset deletion) contribute only their error. -/
structure ProvEnv where
  updateInstance : UpdRes
  getNs : GetRes KNamespace
  updateNs : UpdRes
  newApplier : Option String
  getSa : GetRes Unit
  createSa : Option String
  createOrUpdatePath : Option String
  generateYamls : Option String
  importSecret : Option String
  deleteSyncSets : RResult × Option String
  deriving DecidableEq, Repr

/-- The provisioning steps, recorded as each is executed. -/
inductive ProvStep where
  | updateInstance
  | getNs
  | updateNs
  | newApplier
  | getSa
  | createSa
  | createOrUpdatePath
  | generateYamls
  | importSecret
  | deleteSyncSets
  | reachBranch
  deriving DecidableEq, Repr

/-- Error carried by a not-found `client.Get` when the code returns it
verbatim (the namespace fetch has no not-found special case). -/
def notFoundErr (kind name : String) : String :=
  kind ++ " " ++ name ++ " not found"

/-- Lines 159-267 of `Reconcile` for an active cluster, stopping at the
reachability branch: every step returns on its error — except the bootstrap
service-account existence check, whose guard
`err != nil && errors.IsNotFound(err)` only triggers creation on not-found
and falls through on any other error.  Returns the Go `(result, error)` pair
(`none` in the first slot meaning execution reached the branch) and the trace
of executed steps. -/
def provisionSeq (env : ProvEnv) (mc : ManagedCluster) :
    Option (RResult × Option String) × List ProvStep :=
  match env.updateInstance with
  | .err e => (some (⟨false, 0⟩, some e), [.updateInstance])
  | .ok =>
    match env.getNs with
    | .err e => (some (⟨false, 0⟩, some e), [.updateInstance, .getNs])
    | .notFound =>
      (some (⟨false, 0⟩, some (notFoundErr "namespaces" mc.name)),
        [.updateInstance, .getNs])
    | .ok ns =>
      let nsUpdate : Option (RResult × Option String) × List ProvStep :=
        match lookupL ns.labels clusterLabel with
        | some _ => (none, [])
        | none =>
          match env.updateNs with
          | .err e => (some (⟨false, 0⟩, some e), [.updateNs])
          | .ok => (none, [.updateNs])
      match nsUpdate.1 with
      | some r => (some r, [.updateInstance, .getNs] ++ nsUpdate.2)
      | none =>
        let pre := [ProvStep.updateInstance, .getNs] ++ nsUpdate.2
        match env.newApplier with
        | some e => (some (⟨false, 0⟩, some e), pre ++ [.newApplier])
        | none =>
          let saSteps : Option (RResult × Option String) × List ProvStep :=
            match env.getSa with
            | .notFound =>
              match env.createSa with
              | some e => (some (⟨false, 0⟩, some e), [.getSa, .createSa])
              | none => (none, [.getSa, .createSa])
            | .ok _ => (none, [.getSa])
            | .err _ => (none, [.getSa])
          match saSteps.1 with
          | some r => (some r, pre ++ [.newApplier] ++ saSteps.2)
          | none =>
            let pre2 := pre ++ [ProvStep.newApplier] ++ saSteps.2
            match env.createOrUpdatePath with
            | some e => (some (⟨false, 0⟩, some e), pre2 ++ [.createOrUpdatePath])
            | none =>
              match env.generateYamls with
              | some e =>
                (some (⟨false, 0⟩, some e),
                  pre2 ++ [.createOrUpdatePath, .generateYamls])
              | none =>
                match env.importSecret with
                | some e =>
                  (some (⟨false, 0⟩, some e),
                    pre2 ++ [.createOrUpdatePath, .generateYamls, .importSecret])
                | none =>
                  match env.deleteSyncSets with
                  | (res, some e) =>
                    (some (res, some e),
                      pre2 ++ [.createOrUpdatePath, .generateYamls, .importSecret,
                        .deleteSyncSets])
                  | (_, none) =>
                    (none,
                      pre2 ++ [.createOrUpdatePath, .generateYamls, .importSecret,
                        .deleteSyncSets, .reachBranch])

/-! ## Reconcile: the idempotent head (lines 159-195) as a store transition -/

/-- The store state the head of the provisioning sequence reads and writes:
the cluster object and its backing namespace. -/
structure ClusterState where
  mc : ManagedCluster
  ns : KNamespace
  deriving DecidableEq, Repr

/-- Mutating store calls issued by the head, with the written content. -/
inductive MutOp where
  | updateInstance (mc : ManagedCluster)
  | updateNs (ns : KNamespace)
  deriving DecidableEq, Repr

/-- Lines 159-195 of `Reconcile` against a store that applies writes: add the
cleanup finalizer if absent, add the `name` label if absent, issue the
instance update unconditionally, then add the cluster back-reference label to
the namespace — issuing that update only when the label was missing. -/
def provisionHead (st : ClusterState) : ClusterState × List MutOp :=
  let mc1 : ManagedCluster :=
    { st.mc with finalizers := addFinalizer st.mc.finalizers managedClusterFinalizer }
  let mc2 : ManagedCluster :=
    match lookupL mc1.labels "name" with
    | some _ => mc1
    | none => { mc1 with labels := insertL mc1.labels "name" mc1.name }
  match lookupL st.ns.labels clusterLabel with
  | some _ => (⟨mc2, st.ns⟩, [MutOp.updateInstance mc2])
  | none =>
    let ns' : KNamespace :=
      { st.ns with labels := insertL st.ns.labels clusterLabel st.mc.name }
    (⟨mc2, ns'⟩, [MutOp.updateInstance mc2, MutOp.updateNs ns'])

/-! ## Concrete fixtures used by witnesses and counterexamples -/

/-- A cluster with no labels, finalizers or conditions. -/
def mcPlain : ManagedCluster := ⟨"cluster1", [], [], none, []⟩

/-- A cluster carrying `local-cluster: "true"`. -/
def mcSelfTrue : ManagedCluster :=
  ⟨"cluster1", [("local-cluster", "true")], [], none, []⟩

/-- A cluster carrying an unparseable `local-cluster: "yes"`. -/
def mcSelfBad : ManagedCluster :=
  ⟨"cluster1", [("local-cluster", "yes")], [], none, []⟩

/-- A ClusterDeployment named after the cluster, carrying the controller's
cleanup finalizer. -/
def cdSample : ClusterDeployment :=
  ⟨"cluster1", "cluster1", ["other-finalizer", managedClusterFinalizer]⟩

/-- The fixed-name auto-import secret in the cluster's namespace. -/
def secretSample : Secret := ⟨autoImportSecretName, "cluster1"⟩

/-- The cluster's backing namespace, without the back-reference label. -/
def nsPlain : KNamespace := ⟨"cluster1", [], none⟩

/-- The cluster's backing namespace with the back-reference label. -/
def nsLabelled : KNamespace := ⟨"cluster1", [(clusterLabel, "cluster1")], none⟩

/-! ## Helper lemmas -/

theorem lookupL_insertL_none {m : List (String × String)} {k : String} (v : String)
    (h : lookupL m k = none) : lookupL (insertL m k v) k = some v := by
  induction m with
  | nil => simp [insertL, lookupL]
  | cons p rest ih =>
    obtain ⟨k', w⟩ := p
    by_cases hk : k' = k
    · simp [lookupL, hk] at h
    · simp only [insertL, List.cons_append, lookupL, if_neg hk] at h ⊢
      exact ih h

theorem mem_addFinalizer (fs : List String) (f : String) : f ∈ addFinalizer fs f := by
  unfold addFinalizer
  split
  · assumption
  · simp

theorem addFinalizer_of_mem {fs : List String} {f : String} (h : f ∈ fs) :
    addFinalizer fs f = fs := by
  simp [addFinalizer, h]

/-! ## C1 -/

/-- C1: import decision precedence.  A parseable self-managed label decides
the outcome with no store lookup issued; an unparseable label value returns
`ParseBool`'s error, again with no lookup; with no label, a present
ClusterDeployment yields the decision import referencing it, for any state of
the retry secret; with no label, no ClusterDeployment and no auto-import
secret, the decision is no-import with nil error. -/
theorem C1_import_decision_precedence (env : TBIEnv) (mc : ManagedCluster) :
    (∀ v b, lookupL mc.labels selfManagedLabel = some v → parseBool v = some b →
      toBeImported env mc = (⟨none, none, b, none⟩, [])) ∧
    (∀ v, lookupL mc.labels selfManagedLabel = some v → parseBool v = none →
      toBeImported env mc = (⟨none, none, false, some (parseBoolErr v)⟩, [])) ∧
    (∀ cd, lookupL mc.labels selfManagedLabel = none →
      env.clusterDeployment = GetRes.ok cd →
      (toBeImported env mc).1 = ⟨none, some cd, true, none⟩) ∧
    (lookupL mc.labels selfManagedLabel = none →
      env.clusterDeployment = GetRes.notFound →
      env.autoImportSecret = GetRes.notFound →
      (toBeImported env mc).1 = ⟨none, none, false, none⟩) := by
  refine ⟨?_, ?_, ?_, ?_⟩
  · intro v b hv hb
    simp [toBeImported, hv, hb]
  · intro v hv hb
    simp [toBeImported, hv, hb]
  · intro cd hv hcd
    simp [toBeImported, hv, hcd]
  · intro hv hcd hs
    simp [toBeImported, hv, hcd, hs]

/-- C1 at concrete inputs: the self-managed label `"true"` decides import
with no lookup even while both the ClusterDeployment and the secret exist; an
unparseable value errs; without the label a ClusterDeployment wins though the
secret exists; with nothing present the decision is no-import, no error. -/
theorem C1_witness :
    toBeImported ⟨GetRes.ok cdSample, GetRes.ok secretSample⟩ mcSelfTrue =
      (⟨none, none, true, none⟩, []) ∧
    toBeImported ⟨GetRes.ok cdSample, GetRes.ok secretSample⟩ mcSelfBad =
      (⟨none, none, false, some (parseBoolErr "yes")⟩, []) ∧
    (toBeImported ⟨GetRes.ok cdSample, GetRes.ok secretSample⟩ mcPlain).1 =
      ⟨none, some cdSample, true, none⟩ ∧
    (toBeImported ⟨GetRes.notFound, GetRes.notFound⟩ mcPlain).1 =
      ⟨none, none, false, none⟩ := by
  refine ⟨?_, ?_, ?_, ?_⟩
  · exact (C1_import_decision_precedence _ mcSelfTrue).1 "true" true (by decide) (by decide)
  · exact (C1_import_decision_precedence _ mcSelfBad).2.1 "yes" (by decide) (by decide)
  · exact (C1_import_decision_precedence _ mcPlain).2.2.1 cdSample (by decide) rfl
  · exact (C1_import_decision_precedence _ mcPlain).2.2.2 (by decide) rfl rfl

/-! ## C2 -/

/-- C2: deletion ordering.  When the namespace exists, is not yet marked for
deletion, and the ClusterDeployment get finds the record, `deleteNamespace`
issues exactly the trace get-namespace, get-ClusterDeployment, and one update
writing the record with the controller's finalizer removed; no namespace
delete is in the trace; an error is always returned, and when the update
succeeds that error is the explicit message naming the namespace. -/
theorem C2_deletion_ordering (env : DNSEnv) (name : String) (ns : KNamespace)
    (cd : ClusterDeployment) (hns : env.ns = GetRes.ok ns)
    (hdt : ns.deletionTimestamp = none)
    (hcd : env.clusterDeployment = GetRes.ok cd) :
    (deleteNamespace env name).2 =
      [DNSOp.getNs, DNSOp.getCD,
        DNSOp.updateCD
          { cd with finalizers := removeFinalizer cd.finalizers managedClusterFinalizer }] ∧
    managedClusterFinalizer ∉ (removeFinalizer cd.finalizers managedClusterFinalizer) ∧
    DNSOp.deleteNs ∉ (deleteNamespace env name).2 ∧
    (deleteNamespace env name).1.isSome ∧
    (env.updateCD = UpdRes.ok →
      (deleteNamespace env name).1 = some (blockErrMsg name)) := by
  have htrace : (deleteNamespace env name).2 =
      [DNSOp.getNs, DNSOp.getCD,
        DNSOp.updateCD
          { cd with finalizers := removeFinalizer cd.finalizers managedClusterFinalizer }] := by
    cases hupd : env.updateCD <;>
      simp [deleteNamespace, hns, hdt, hcd, hupd]
  refine ⟨htrace, ?_, ?_, ?_, ?_⟩
  · simp [removeFinalizer]
  · rw [htrace]
    simp
  · cases hupd : env.updateCD <;>
      simp [deleteNamespace, hns, hdt, hcd, hupd]
  · intro hupd
    simp [deleteNamespace, hns, hdt, hcd, hupd]

/-- C2 at a concrete input: namespace present and live, ClusterDeployment
present with the controller's finalizer, update succeeding. -/
theorem C2_witness :
    (deleteNamespace ⟨GetRes.ok nsLabelled, GetRes.ok cdSample, UpdRes.ok, DelRes.ok⟩
        "cluster1").2 =
      [DNSOp.getNs, DNSOp.getCD,
        DNSOp.updateCD
          { cdSample with
              finalizers := removeFinalizer cdSample.finalizers managedClusterFinalizer }] ∧
    managedClusterFinalizer ∉ removeFinalizer cdSample.finalizers managedClusterFinalizer ∧
    DNSOp.deleteNs ∉
      (deleteNamespace ⟨GetRes.ok nsLabelled, GetRes.ok cdSample, UpdRes.ok, DelRes.ok⟩
        "cluster1").2 ∧
    (deleteNamespace ⟨GetRes.ok nsLabelled, GetRes.ok cdSample, UpdRes.ok, DelRes.ok⟩
        "cluster1").1.isSome ∧
    (UpdRes.ok = UpdRes.ok →
      (deleteNamespace ⟨GetRes.ok nsLabelled, GetRes.ok cdSample, UpdRes.ok, DelRes.ok⟩
        "cluster1").1 = some (blockErrMsg "cluster1")) := by
  have h := C2_deletion_ordering
    ⟨GetRes.ok nsLabelled, GetRes.ok cdSample, UpdRes.ok, DelRes.ok⟩
    "cluster1" nsLabelled cdSample rfl rfl rfl
  exact ⟨h.1, h.2.1, h.2.2.1, h.2.2.2.1, fun _ => h.2.2.2.2 rfl⟩

/-! ## C3 -/

/-- The loop of `checkOffLine` decides offline exactly at an absent, Unknown
or False first `Available` condition, and online exactly at a True one. -/
theorem checkOffLineLoop_spec (cs : List Condition) :
    (checkOffLineLoop cs = true ↔
      findCondition cs ManagedClusterConditionAvailable = none ∨
      ∃ c, findCondition cs ManagedClusterConditionAvailable = some c ∧
        (c.status = ConditionStatus.cunknown ∨ c.status = ConditionStatus.cfalse)) ∧
    (checkOffLineLoop cs = false ↔
      ∃ c, findCondition cs ManagedClusterConditionAvailable = some c ∧
        c.status = ConditionStatus.ctrue) := by
  induction cs with
  | nil => simp [checkOffLineLoop, findCondition]
  | cons c rest ih =>
    by_cases hc : c.ctype = ManagedClusterConditionAvailable
    · cases hst : c.status <;>
        simp [checkOffLineLoop, findCondition, hc, hst]
    · simpa [checkOffLineLoop, findCondition, hc] using ih

/-- C3: reachability classification.  `checkOffLine` returns offline exactly
when the stored `Available` condition is absent, Unknown or False, and online
exactly when that condition's status is True. -/
theorem C3_reachability_classification (mc : ManagedCluster) :
    (checkOffLine mc = true ↔
      findCondition mc.conditions ManagedClusterConditionAvailable = none ∨
      ∃ c, findCondition mc.conditions ManagedClusterConditionAvailable = some c ∧
        (c.status = ConditionStatus.cunknown ∨ c.status = ConditionStatus.cfalse)) ∧
    (checkOffLine mc = false ↔
      ∃ c, findCondition mc.conditions ManagedClusterConditionAvailable = some c ∧
        c.status = ConditionStatus.ctrue) :=
  checkOffLineLoop_spec mc.conditions

/-- C3 at concrete inputs: absent condition is offline; a True `Available`
condition is online; an Unknown one is offline. -/
theorem C3_witness :
    checkOffLine mcPlain = true ∧
    checkOffLine
      { mcPlain with
          conditions :=
            [⟨ManagedClusterConditionAvailable, ConditionStatus.ctrue, "r", "m"⟩] } =
      false ∧
    checkOffLine
      { mcPlain with
          conditions :=
            [⟨ManagedClusterConditionAvailable, ConditionStatus.cunknown, "r", "m"⟩] } =
      true := by
  refine ⟨?_, ?_, ?_⟩
  · exact (C3_reachability_classification mcPlain).1.mpr (Or.inl (by decide))
  · exact (C3_reachability_classification _).2.mpr
      ⟨⟨ManagedClusterConditionAvailable, ConditionStatus.ctrue, "r", "m"⟩,
        by decide, rfl⟩
  · exact (C3_reachability_classification _).1.mpr
      (Or.inr ⟨⟨ManagedClusterConditionAvailable, ConditionStatus.cunknown, "r", "m"⟩,
        by decide, Or.inl rfl⟩)

/-! ## C4 -/

/-- Offline-branch environment with an approved decision (self-managed label
true) and a failing `importCluster`. -/
def envC4 : OBEnv :=
  ⟨⟨GetRes.notFound, GetRes.notFound⟩, ⟨false, 0⟩, some "import failed", UpdRes.ok⟩

/-- C4 counterexample: the decision approves the import
(`toBeImported` yields true), `importCluster` fails, yet no status patch is
issued and the stored cluster keeps no `ManagedClusterImportSucceeded`
condition — the failure outcome is not recorded, against the claim that the
outcome (success or failure) is recorded via the recorder. -/
theorem C4_counterexample :
    (toBeImported envC4.tbi mcSelfTrue).1.toImport = true ∧
    (toBeImported envC4.tbi mcSelfTrue).1.err = none ∧
    offlineBranch envC4 mcSelfTrue =
      ⟨⟨false, 0⟩, some "import failed", mcSelfTrue, false⟩ ∧
    findCondition (offlineBranch envC4 mcSelfTrue).stored.conditions
      ManagedClusterImportSucceeded = none := by
  refine ⟨rfl, rfl, rfl, rfl⟩

/-- C4 amended: if the decision engine declines with nil error, the branch
returns success with no error, no requeue and no condition written; if it
approves and `importCluster` errs or requests a requeue, the branch returns
that result and error unmodified with no condition written; only when
the import returns nil error without requeue is the success condition recorded
(True / "Import succeeded", when the patch succeeds) and that result
returned with nil error. -/
theorem C4_unreachable_branch_amended (env : OBEnv) (mc : ManagedCluster) :
    ((toBeImported env.tbi mc).1.err = none →
      (toBeImported env.tbi mc).1.toImport = false →
      offlineBranch env mc = ⟨⟨false, 0⟩, none, mc, false⟩) ∧
    ((toBeImported env.tbi mc).1.err = none →
      (toBeImported env.tbi mc).1.toImport = true →
      (env.importResult.requeue = true ∨ env.importErr.isSome) →
      offlineBranch env mc = ⟨env.importResult, env.importErr, mc, false⟩) ∧
    ((toBeImported env.tbi mc).1.err = none →
      (toBeImported env.tbi mc).1.toImport = true →
      env.importResult.requeue = false → env.importErr = none →
      env.patchRes = UpdRes.ok →
      offlineBranch env mc =
        ⟨env.importResult, none,
          { mc with
              conditions :=
                setStatusCondition mc.conditions
                  ⟨ManagedClusterImportSucceeded, ConditionStatus.ctrue,
                    "ManagedClusterImported", "Import succeeded"⟩ },
          true⟩) := by
  refine ⟨?_, ?_, ?_⟩
  · intro herr htoi
    simp [offlineBranch, herr, htoi]
  · intro herr htoi hreq
    rcases hreq with hreq | hreq
    · simp [offlineBranch, herr, htoi, hreq]
    · simp [offlineBranch, herr, htoi, hreq]
  · intro herr htoi hreq himp hpatch
    simp [offlineBranch, herr, htoi, hreq, himp, hpatch, setConditionImport]

/-- C4 amended at concrete inputs: declined decision ends clean with no
condition; approved decision with clean import records the True condition. -/
theorem C4_amended_witness :
    offlineBranch ⟨⟨GetRes.notFound, GetRes.notFound⟩, ⟨false, 0⟩, none, UpdRes.ok⟩
        mcPlain =
      ⟨⟨false, 0⟩, none, mcPlain, false⟩ ∧
    offlineBranch ⟨⟨GetRes.notFound, GetRes.notFound⟩, ⟨false, 0⟩, none, UpdRes.ok⟩
        mcSelfTrue =
      ⟨⟨false, 0⟩, none,
        { mcSelfTrue with
            conditions :=
              setStatusCondition mcSelfTrue.conditions
                ⟨ManagedClusterImportSucceeded, ConditionStatus.ctrue,
                  "ManagedClusterImported", "Import succeeded"⟩ },
        true⟩ := by
  refine ⟨?_, ?_⟩
  · exact (C4_unreachable_branch_amended
      ⟨⟨GetRes.notFound, GetRes.notFound⟩, ⟨false, 0⟩, none, UpdRes.ok⟩ mcPlain).1
      rfl rfl
  · exact (C4_unreachable_branch_amended
      ⟨⟨GetRes.notFound, GetRes.notFound⟩, ⟨false, 0⟩, none, UpdRes.ok⟩ mcSelfTrue).2.2
      rfl rfl rfl rfl rfl

/-! ## C5 -/

/-- Provisioning environment in which every step succeeds except the
bootstrap service-account existence check, whose get returns an unexpected
(non-not-found) store error. -/
def envC5 : ProvEnv :=
  ⟨UpdRes.ok, GetRes.ok nsLabelled, UpdRes.ok, none, GetRes.err "connection refused",
    none, none, none, none, (⟨false, 0⟩, none)⟩

/-- C5: the unexpected store error of the service-account existence check is
swallowed: the sequence runs on to its end (reaching the reachability branch
with no error and no service-account creation) instead of aborting with the
error, because the guard only reacts to not-found. -/
theorem C5_sa_error_swallowed :
    provisionSeq envC5 mcPlain =
      (none,
        [ProvStep.updateInstance, ProvStep.getNs, ProvStep.newApplier, ProvStep.getSa,
          ProvStep.createOrUpdatePath, ProvStep.generateYamls, ProvStep.importSecret,
          ProvStep.deleteSyncSets, ProvStep.reachBranch]) ∧
    ProvStep.createSa ∉ (provisionSeq envC5 mcPlain).2 ∧
    (provisionSeq envC5 mcPlain).1 ≠
      some (⟨false, 0⟩, some "connection refused") := by
  refine ⟨rfl, by decide, by decide⟩

/-! ## C6 -/

/-- C6: status recorder contract.  The computed condition is
True / "Import succeeded" on nil input error and
False / "error: context" on a non-nil one with nonempty context; the patch
base is the pre-mutation condition list; a successful patch stores exactly
the merged condition list and the call returns the input error unchanged; and
in the calling branch of `Reconcile` a failing patch never changes the
returned result or error. -/
theorem C6_status_recorder (patchRes : UpdRes) (mc : ManagedCluster)
    (errIn : Option String) (reason : String) :
    ((setConditionImport patchRes mc none reason).newCondition =
      ⟨ManagedClusterImportSucceeded, ConditionStatus.ctrue,
        "ManagedClusterImported", "Import succeeded"⟩) ∧
    (∀ m, reason ≠ "" →
      (setConditionImport patchRes mc (some m) reason).newCondition =
        ⟨ManagedClusterImportSucceeded, ConditionStatus.cfalse,
          "ManagedClusterNotImported", m ++ ": " ++ reason⟩) ∧
    ((setConditionImport patchRes mc errIn reason).patchBase = mc.conditions) ∧
    ((setConditionImport UpdRes.ok mc errIn reason).ret = errIn) ∧
    ((setConditionImport UpdRes.ok mc errIn reason).stored.conditions =
      setStatusCondition mc.conditions
        (setConditionImport UpdRes.ok mc errIn reason).newCondition) ∧
    (∀ env : OBEnv, ∀ p : UpdRes,
      (offlineBranch { env with patchRes := p } mc).err =
        (offlineBranch env mc).err ∧
      (offlineBranch { env with patchRes := p } mc).result =
        (offlineBranch env mc).result) := by
  refine ⟨?_, ?_, ?_, ?_, ?_, ?_⟩
  · cases patchRes <;> simp [setConditionImport]
  · intro m hr
    cases patchRes <;> simp [setConditionImport, hr]
  · cases patchRes <;> cases errIn <;> simp [setConditionImport]
  · cases errIn <;> simp [setConditionImport]
  · cases errIn <;> simp [setConditionImport]
  · intro env p
    rcases herr : (toBeImported env.tbi mc).1.err with _ | e
    · by_cases htoi : (toBeImported env.tbi mc).1.toImport
      · by_cases hreq : env.importResult.requeue
        · simp [offlineBranch, herr, htoi, hreq]
        · cases himp : env.importErr <;>
            cases p <;> cases henv : env.patchRes <;>
              simp [offlineBranch, herr, htoi, hreq, himp, setConditionImport]
      · simp [offlineBranch, herr, htoi]
    · simp [offlineBranch, herr]

/-- C6 at concrete inputs: nil error yields the True condition and nil
return; a non-nil error with context yields the False condition with the
joined message; the patch base is the pre-mutation list; a failing patch
leaves the branch's returned error and result unchanged. -/
theorem C6_witness :
    (setConditionImport UpdRes.ok mcPlain none "Unable to import cluster1").newCondition =
      ⟨ManagedClusterImportSucceeded, ConditionStatus.ctrue,
        "ManagedClusterImported", "Import succeeded"⟩ ∧
    (setConditionImport UpdRes.ok mcPlain (some "boom")
        "Unable to import cluster1").newCondition =
      ⟨ManagedClusterImportSucceeded, ConditionStatus.cfalse,
        "ManagedClusterNotImported", "boom: Unable to import cluster1"⟩ ∧
    (setConditionImport UpdRes.ok mcPlain (some "boom")
        "Unable to import cluster1").patchBase = mcPlain.conditions ∧
    (setConditionImport UpdRes.ok mcPlain (some "boom")
        "Unable to import cluster1").ret = some "boom" ∧
    (offlineBranch
        ⟨⟨GetRes.notFound, GetRes.notFound⟩, ⟨false, 0⟩, none, UpdRes.err "patch failed"⟩
        mcSelfTrue).err =
      (offlineBranch
        ⟨⟨GetRes.notFound, GetRes.notFound⟩, ⟨false, 0⟩, none, UpdRes.ok⟩
        mcSelfTrue).err := by
  have h := C6_status_recorder UpdRes.ok mcPlain (some "boom") "Unable to import cluster1"
  have h6 := (C6_status_recorder (UpdRes.err "patch failed") mcSelfTrue none
    "Unable to import cluster1").2.2.2.2.2
    ⟨⟨GetRes.notFound, GetRes.notFound⟩, ⟨false, 0⟩, none, UpdRes.ok⟩
    (UpdRes.err "patch failed")
  exact ⟨h.1, h.2.1 "boom" (by decide), h.2.2.1, h.2.2.2.1, h6.1⟩

/-! ## C7 -/

/-- C7 counterexample: with no self-managed label, a not-found
ClusterDeployment and a not-found secret, `toBeImported` issues two store
lookups beyond the label check — more than the claimed at-most-one. -/
theorem C7_counterexample :
    (toBeImported ⟨GetRes.notFound, GetRes.notFound⟩ mcPlain).2 =
      [TBILookup.getClusterDeployment, TBILookup.getAutoImportSecret] ∧
    ¬ (toBeImported ⟨GetRes.notFound, GetRes.notFound⟩ mcPlain).2.length ≤ 1 := by
  exact ⟨rfl, by decide⟩

/-- C7 amended: `toBeImported` issues at most two store lookups; the
ClusterDeployment lookup happens exactly when the self-managed label is
absent, and the retry-secret lookup happens exactly when additionally the
ClusterDeployment lookup returned not-found — so no lower-priority rule is
evaluated once a higher-priority rule has resolved. -/
theorem C7_lookup_bound_amended (env : TBIEnv) (mc : ManagedCluster) :
    (toBeImported env mc).2.length ≤ 2 ∧
    (TBILookup.getClusterDeployment ∈ (toBeImported env mc).2 ↔
      lookupL mc.labels selfManagedLabel = none) ∧
    (TBILookup.getAutoImportSecret ∈ (toBeImported env mc).2 ↔
      lookupL mc.labels selfManagedLabel = none ∧
      env.clusterDeployment = GetRes.notFound) := by
  rcases hl : lookupL mc.labels selfManagedLabel with _ | v
  · cases hcd : env.clusterDeployment <;>
      cases hs : env.autoImportSecret <;>
        simp [toBeImported, hl, hcd, hs]
  · cases hpb : parseBool v <;>
      simp [toBeImported, hl, hpb]

/-- C7 amended at concrete inputs: a present label means no lookup at all; a
found ClusterDeployment stops after one lookup. -/
theorem C7_amended_witness :
    (toBeImported ⟨GetRes.ok cdSample, GetRes.ok secretSample⟩ mcSelfTrue).2.length ≤ 2 ∧
    ¬ TBILookup.getClusterDeployment ∈
      (toBeImported ⟨GetRes.ok cdSample, GetRes.ok secretSample⟩ mcSelfTrue).2 ∧
    ¬ TBILookup.getAutoImportSecret ∈
      (toBeImported ⟨GetRes.ok cdSample, GetRes.ok secretSample⟩ mcPlain).2 := by
  have h1 := C7_lookup_bound_amended ⟨GetRes.ok cdSample, GetRes.ok secretSample⟩ mcSelfTrue
  have h2 := C7_lookup_bound_amended ⟨GetRes.ok cdSample, GetRes.ok secretSample⟩ mcPlain
  refine ⟨h1.1, ?_, ?_⟩
  · intro hmem
    exact absurd (h1.2.1.mp hmem) (by decide)
  · intro hmem
    exact absurd (h2.2.2.mp hmem).2 (by decide)

/-! ## C8 -/

/-- C8: when the initial fetch of the ManagedCluster reports not-found and
the namespace cleanup fails, `Reconcile` returns nil error together with a
requeue after exactly one minute, for any injected deletion-pipeline
outcome. -/
theorem C8_notfound_cleanup_retry (dnsEnv : DNSEnv) (requestName : String)
    (deletionOutcome : RResult × Option String)
    (hfail : (deleteNamespace dnsEnv requestName).1.isSome) :
    reconcileFetch GetRes.notFound dnsEnv requestName deletionOutcome =
      FetchOutcome.done ⟨true, timeMinute⟩ none := by
  rcases hd : (deleteNamespace dnsEnv requestName).1 with _ | e
  · rw [hd] at hfail
    simp at hfail
  · simp [reconcileFetch, hd]

/-- C8 at a concrete input: the namespace get inside the cleanup fails, and
the reconcile returns nil error with a one-minute requeue. -/
theorem C8_witness :
    reconcileFetch GetRes.notFound
        ⟨GetRes.err "store down", GetRes.notFound, UpdRes.ok, DelRes.ok⟩
        "cluster1" (⟨false, 0⟩, none) =
      FetchOutcome.done ⟨true, timeMinute⟩ none :=
  C8_notfound_cleanup_retry
    ⟨GetRes.err "store down", GetRes.notFound, UpdRes.ok, DelRes.ok⟩
    "cluster1" (⟨false, 0⟩, none) (by decide)

/-! ## C9 -/

/-- C9: deletion no-op cases.  A not-found namespace returns success after
the get alone; a namespace already carrying a deletion timestamp likewise;
and when the blocking ClusterDeployment is absent the namespace delete is
issued, with both a clean and an already-gone (not-found) delete treated as
success and any other delete error returned. -/
theorem C9_deletion_noop_cases (env : DNSEnv) (name : String) :
    (env.ns = GetRes.notFound →
      deleteNamespace env name = (none, [DNSOp.getNs])) ∧
    (∀ ns t, env.ns = GetRes.ok ns → ns.deletionTimestamp = some t →
      deleteNamespace env name = (none, [DNSOp.getNs])) ∧
    (∀ ns, env.ns = GetRes.ok ns → ns.deletionTimestamp = none →
      env.clusterDeployment = GetRes.notFound →
      (DNSOp.deleteNs ∈ (deleteNamespace env name).2 ∧
        (env.deleteNs = DelRes.ok → (deleteNamespace env name).1 = none) ∧
        (env.deleteNs = DelRes.notFound → (deleteNamespace env name).1 = none) ∧
        (∀ e, env.deleteNs = DelRes.err e →
          (deleteNamespace env name).1 = some e))) := by
  refine ⟨?_, ?_, ?_⟩
  · intro h
    simp [deleteNamespace, h]
  · intro ns t hns hdt
    simp [deleteNamespace, hns, hdt]
  · intro ns hns hdt hcd
    refine ⟨?_, ?_, ?_, ?_⟩
    · cases hdel : env.deleteNs <;>
        simp [deleteNamespace, hns, hdt, hcd, hdel]
    · intro hdel
      simp [deleteNamespace, hns, hdt, hcd, hdel]
    · intro hdel
      simp [deleteNamespace, hns, hdt, hcd, hdel]
    · intro e hdel
      simp [deleteNamespace, hns, hdt, hcd, hdel]

/-- C9 at concrete inputs: absent namespace is a clean no-op; a namespace in
deletion is a clean no-op; without a ClusterDeployment the delete is issued
and its not-found outcome is success. -/
theorem C9_witness :
    deleteNamespace ⟨GetRes.notFound, GetRes.notFound, UpdRes.ok, DelRes.ok⟩
        "cluster1" = (none, [DNSOp.getNs]) ∧
    deleteNamespace
        ⟨GetRes.ok { nsPlain with deletionTimestamp := some 5 }, GetRes.notFound,
          UpdRes.ok, DelRes.ok⟩ "cluster1" = (none, [DNSOp.getNs]) ∧
    DNSOp.deleteNs ∈
      (deleteNamespace ⟨GetRes.ok nsPlain, GetRes.notFound, UpdRes.ok, DelRes.notFound⟩
        "cluster1").2 ∧
    (deleteNamespace ⟨GetRes.ok nsPlain, GetRes.notFound, UpdRes.ok, DelRes.notFound⟩
        "cluster1").1 = none := by
  have h1 := (C9_deletion_noop_cases
    ⟨GetRes.notFound, GetRes.notFound, UpdRes.ok, DelRes.ok⟩ "cluster1").1 rfl
  have h2 := (C9_deletion_noop_cases
    ⟨GetRes.ok { nsPlain with deletionTimestamp := some 5 }, GetRes.notFound,
      UpdRes.ok, DelRes.ok⟩ "cluster1").2.1
    { nsPlain with deletionTimestamp := some 5 } 5 rfl rfl
  have h3 := (C9_deletion_noop_cases
    ⟨GetRes.ok nsPlain, GetRes.notFound, UpdRes.ok, DelRes.notFound⟩ "cluster1").2.2
    nsPlain rfl rfl rfl
  exact ⟨h1, h2, h3.1, h3.2.2.1 rfl⟩

/-! ## C10 -/

/-- C10 counterexample: starting from a bare cluster and namespace, the
second run of the head of the provisioning sequence leaves the store state
unchanged yet still issues a mutating store call — the unconditional update
of the cluster object — against the claim of no additional mutating calls. -/
theorem C10_counterexample :
    (provisionHead (provisionHead ⟨mcPlain, nsPlain⟩).1).1 =
      (provisionHead ⟨mcPlain, nsPlain⟩).1 ∧
    (provisionHead (provisionHead ⟨mcPlain, nsPlain⟩).1).2 =
      [MutOp.updateInstance (provisionHead ⟨mcPlain, nsPlain⟩).1.mc] ∧
    (provisionHead (provisionHead ⟨mcPlain, nsPlain⟩).1).2 ≠ [] := by
  refine ⟨rfl, rfl, by decide⟩

/-- C10 amended: re-running the head of the provisioning sequence on the
state left by a first run returns that state unchanged — identical labels,
finalizers and conditions — and issues exactly one mutating store call, the
unconditional instance update whose written content equals the stored
cluster; the conditional namespace update is not issued again. -/
theorem C10_idempotent_head_amended (st : ClusterState) :
    provisionHead (provisionHead st).1 =
      ((provisionHead st).1, [MutOp.updateInstance (provisionHead st).1.mc]) := by
  rcases st with ⟨mc, ns⟩
  rcases hname : lookupL mc.labels "name" with _ | w <;>
    rcases hns : lookupL ns.labels clusterLabel with _ | u <;>
      simp [provisionHead, hname, hns, addFinalizer_of_mem (mem_addFinalizer _ _),
        lookupL_insertL_none, mem_addFinalizer]

/-- C10 amended at a concrete input: a second run on a cluster that already
carries its labels and finalizer re-issues only the no-op instance update. -/
theorem C10_amended_witness :
    provisionHead (provisionHead ⟨mcSelfTrue, nsLabelled⟩).1 =
      ((provisionHead ⟨mcSelfTrue, nsLabelled⟩).1,
        [MutOp.updateInstance (provisionHead ⟨mcSelfTrue, nsLabelled⟩).1.mc]) :=
  C10_idempotent_head_amended ⟨mcSelfTrue, nsLabelled⟩

end MCImport
